import Mathlib

/-!
Shallow embedding of the `zeit_dao` ink! contract (src/lib.rs): a small governance
engine with a fixed membership list, a per-(member, proposal) ballot mapping, a quorum
threshold and an append-only proposal log.  Machine integers (`u32` lengths and ids)
are modelled as `Nat` with explicit `% 2 ^ 32` where the source casts; a `panic!` is
modelled as an outer `Option.none`; the host environment (caller identity, the
contract's own account id, the runtime-call executor) is passed explicitly.
-/

namespace ZeitDao

/-- Account identities (`AccountId`, opaque 32-byte values in the source), modelled as
naturals with decidable equality. -/
abbrev AccountId := Nat

/-- The action selector enum `DAOAction` from src/lib.rs. -/
inductive DAOAction
  | RemarkWithEvent
deriving DecidableEq, Repr

/-- `StorableRuntimeAction`: an action selector together with its SCALE-encoded payload
bytes. -/
structure StorableRuntimeAction where
  selector : DAOAction
  data : List Nat
deriving DecidableEq, Repr

/-- The contract error enum `ZeitDAOError` from src/lib.rs. -/
inductive ZeitDAOError
  | CallRuntimeFailed
  | OnlyMemberAllowed
  | OnlySelfAllowed
  | ProposalDoesNotExist
  | NotEnoughVotesApproved
deriving DecidableEq, Repr

/-- The host-environment error type `ink::env::Error`, restricted to the shape the
conversion in src/lib.rs distinguishes: the `CallRuntimeFailed` variant plus
representatives of the remaining variants, which the source matches with a wildcard. -/
inductive EnvError
  | CalleeTrapped
  | CalleeReverted
  | TransferFailed
  | CallRuntimeFailed
  | EcdsaRecoveryFailed
deriving DecidableEq, Repr

/-- `impl From<EnvError> for ZeitDAOError` (src/lib.rs lines 77-84): the
`CallRuntimeFailed` variant converts; every other variant hits `panic!`, modelled as
`none`. -/
def zeitDAOErrorFromEnv : EnvError → Option ZeitDAOError
  | .CallRuntimeFailed => some ZeitDAOError.CallRuntimeFailed
  | _ => none

/-- The `as u32` cast: truncation modulo `2 ^ 32`. -/
def u32cast (n : Nat) : Nat := n % 2 ^ 32

/-- Wrapping `u32` subtraction of one, for an argument already below `2 ^ 32`. -/
def u32sub1 (n : Nat) : Nat := (n + (2 ^ 32 - 1)) % 2 ^ 32

/-- A transfer request issued to the external executor through
`RuntimeCall::AssetManager(AssetManagerCall::Transfer ...)`: destination and amount
(the currency is always `ZeitgeistAsset::Ztg`). -/
structure TransferRequest where
  dest : AccountId
  amount : Nat
deriving DecidableEq, Repr

/-- The `#[ink(storage)]` struct `ZeitDao`: members, the ballot `Mapping` (modelled as
a partial function), the quorum and the proposal log. -/
structure ZeitDaoState where
  members : List AccountId
  votes : AccountId × Nat → Option Bool
  quorum : Nat
  proposals : List StorableRuntimeAction

/-- `Mapping::insert`: point update of the ballot table, overwriting any previous
entry at the key. -/
def mapInsert (m : AccountId × Nat → Option Bool) (k : AccountId × Nat) (v : Bool) :
    AccountId × Nat → Option Bool :=
  fun k2 => if k2 = k then some v else m k2

/-- Constructor `new` (src/lib.rs lines 103-114): panics (modelled as `none`) when the
quorum exceeds the member-list length cast to `u32`; otherwise stores the members and
quorum with an empty ballot mapping and an empty proposal log. -/
def new (q : Nat) (m : List AccountId) : Option ZeitDaoState :=
  if q > u32cast m.length then none
  else some { members := m, votes := fun _ => none, quorum := q, proposals := [] }

/-- Query `is_member`: containment of the caller in the member list. -/
def is_member (s : ZeitDaoState) (caller : AccountId) : Bool :=
  s.members.contains caller

/-- Query `members`: clones every entry of the member list, in order. -/
def membersQuery (s : ZeitDaoState) : List AccountId :=
  s.members.map (fun x => x)

/-- Guard `only_member` (src/lib.rs lines 247-252). -/
def only_member (s : ZeitDaoState) (caller : AccountId) : Except ZeitDAOError Unit :=
  if !(is_member s caller) then .error ZeitDAOError.OnlyMemberAllowed else .ok ()

/-- Guard `only_self` (src/lib.rs lines 254-259): equality test between the caller and
the contract's own account id. -/
def only_self (caller selfAccount : AccountId) : Except ZeitDAOError Unit :=
  if caller ≠ selfAccount then .error ZeitDAOError.OnlySelfAllowed else .ok ()

/-- Guard `check_proposal_exists` (src/lib.rs lines 261-266): the log length cast to
`u32` must strictly exceed the id. -/
def check_proposal_exists (s : ZeitDaoState) (id : Nat) : Except ZeitDAOError Unit :=
  if u32cast s.proposals.length ≤ id then .error ZeitDAOError.ProposalDoesNotExist
  else .ok ()

/-- Message `propose` (src/lib.rs lines 178-183): member-only; pushes the action onto
the log and returns the new length cast to `u32` minus one.  The pair carries the
result and the post-state (`&mut self`). -/
def propose (s : ZeitDaoState) (caller : AccountId) (action : StorableRuntimeAction) :
    Except ZeitDAOError Nat × ZeitDaoState :=
  match only_member s caller with
  | .error e => (.error e, s)
  | .ok _ =>
    let s2 := { s with proposals := s.proposals ++ [action] }
    (.ok (u32sub1 (u32cast s2.proposals.length)), s2)

/-- Message `vote` (src/lib.rs lines 186-192): member-only, then the bounds check, then
an overwriting insert of the ballot for `(caller, id)`. -/
def vote (s : ZeitDaoState) (caller : AccountId) (id : Nat) (direction : Bool) :
    Except ZeitDAOError Unit × ZeitDaoState :=
  match only_member s caller with
  | .error e => (.error e, s)
  | .ok _ =>
    match check_proposal_exists s id with
    | .error e => (.error e, s)
    | .ok _ => (.ok (), { s with votes := mapInsert s.votes (caller, id) direction })

/-- Message `distribute` (src/lib.rs lines 199-208): self-only; issues a single
transfer request of the full balance to `target` and converts any environment error
through the panicking `From` impl.  `envResult` is the executor's response; the outer
`Option` is `none` exactly when that conversion panics.  The middle component is the
unchanged storage. -/
def distribute (s : ZeitDaoState) (caller selfAccount : AccountId) (balance : Nat)
    (target : AccountId) (envResult : Option EnvError) :
    Option (Except ZeitDAOError Unit × ZeitDaoState × List TransferRequest) :=
  match only_self caller selfAccount with
  | .error e => some (.error e, s, [])
  | .ok _ =>
    match envResult with
    | none => some (.ok (), s, [⟨target, balance⟩])
    | some e =>
      match zeitDAOErrorFromEnv e with
      | some z => some (.error z, s, [⟨target, balance⟩])
      | none => none

/-- Query `proposal` (src/lib.rs lines 233-241), exactly as written: when the log
length is at least the id it returns `None`; otherwise it indexes the log at the id,
which is then always out of bounds and panics (outer `none`). -/
def proposal (s : ZeitDaoState) (id : Nat) : Option (Option StorableRuntimeAction) :=
  if s.proposals.length ≥ id then some none
  else (s.proposals[id]?).map some

/-- Modelled from the spec: the tally used by `execute`, which is absent from
src/lib.rs.  Iterate the current membership sequence and count the members whose
ballot at the index is aye; an absent ballot counts as nay. -/
def tally (s : ZeitDaoState) (id : Nat) : Nat :=
  (s.members.filter (fun m => (s.votes (m, id)).getD false)).length

/-- Modelled from the spec: the `execute` entry point is absent from src/lib.rs (a
TODO at line 194 notes it is to be implemented).  Per spec section 4.1 it checks that
the index is in bounds (`ProposalDoesNotExist`), then that the aye tally over current
members reaches the quorum (`NotEnoughVotesApproved`), performs no membership check on
the caller, and dispatches the stored action (returned here as the effect request). -/
def execute (s : ZeitDaoState) (caller : AccountId) (id : Nat) :
    Except ZeitDAOError StorableRuntimeAction :=
  match check_proposal_exists s id with
  | .error e => .error e
  | .ok _ =>
    if tally s id < s.quorum then .error ZeitDAOError.NotEnoughVotesApproved
    else .ok (s.proposals.getD id ⟨DAOAction.RemarkWithEvent, []⟩)

/-! Concrete states used by witnesses and counterexamples. -/

/-- The empty ballot mapping. -/
def emptyVotes : AccountId × Nat → Option Bool := fun _ => none

/-- A concrete remark action. -/
def actRemark : StorableRuntimeAction := ⟨DAOAction.RemarkWithEvent, []⟩

/-- Members 1 and 2, quorum 1, empty log. -/
def exAB : ZeitDaoState := ⟨[1, 2], emptyVotes, 1, []⟩

/-- Members 1 and 2, quorum 1, one logged proposal. -/
def exOne : ZeitDaoState := ⟨[1, 2], emptyVotes, 1, [actRemark]⟩

/-- Member 1's aye ballot on proposal 0. -/
def votesA : AccountId × Nat → Option Bool := mapInsert emptyVotes (1, 0) true

/-- Aye ballots of members 1 and 2 on proposal 0. -/
def votesAB : AccountId × Nat → Option Bool := mapInsert votesA (2, 0) true

/-- Members 1, 2 and 3, quorum 2, one proposal, only member 1 voting aye. -/
def exQuorumA : ZeitDaoState := ⟨[1, 2, 3], votesA, 2, [actRemark]⟩

/-- Members 1, 2 and 3, quorum 2, one proposal, members 1 and 2 voting aye. -/
def exQuorumAB : ZeitDaoState := ⟨[1, 2, 3], votesAB, 2, [actRemark]⟩

/-! Helper lemmas shared by the claim theorems. -/

/-- Index arithmetic of `propose`: for a post-push length below `2 ^ 32`, the cast and
the wrapping decrement return the length before the push. -/
theorem u32sub1_u32cast_succ (l : Nat) (h : l + 1 < 2 ^ 32) :
    u32sub1 (u32cast (l + 1)) = l := by
  unfold u32sub1 u32cast
  rw [Nat.mod_eq_of_lt h]
  omega

/-- A successful `vote` by a member on an in-bounds id returns unit and point-updates
the ballot mapping. -/
theorem vote_ok (s : ZeitDaoState) (caller : AccountId) (id : Nat) (v : Bool)
    (hm : is_member s caller = true) (hid : id < u32cast s.proposals.length) :
    vote s caller id v = (.ok (), { s with votes := mapInsert s.votes (caller, id) v }) := by
  simp [vote, only_member, hm, check_proposal_exists, Nat.not_le.mpr hid]

/-- Overwriting insert: two inserts at one key collapse to the last. -/
theorem mapInsert_mapInsert (m : AccountId × Nat → Option Bool) (k : AccountId × Nat)
    (v1 v2 : Bool) : mapInsert (mapInsert m k v1) k v2 = mapInsert m k v2 := by
  funext k2
  unfold mapInsert
  by_cases h : k2 = k <;> simp [h]

/-! The claim theorems. -/

/-- Claim C1 (code bug): the query `proposal` is claimed to return `some` of the stored
action for every in-bounds id, `none` out of bounds, and never abort.  The source has
the comparison reversed: it returns `none` for every id up to and including the log
length, and for every larger id reaches `self.proposals[id]`, an out-of-bounds read
that aborts (outer `none` here).  With a log holding exactly one action, `proposal 0`
returns `none` instead of the stored action, and `proposal 2` aborts. -/
theorem C1_proposal_reversed_bound :
    proposal exOne 0 = some none ∧ proposal exOne 2 = none := by
  exact ⟨rfl, rfl⟩

/-- Claim C2: `execute` rejects an out-of-bounds id with `ProposalDoesNotExist`,
rejects an in-bounds proposal whose aye tally over current members is below the quorum
with `NotEnoughVotesApproved`, and succeeds, dispatching the stored action, once the
tally reaches the quorum — for every caller, member or not. -/
theorem C2_execute_quorum (s : ZeitDaoState) (caller : AccountId) (id : Nat) :
    (u32cast s.proposals.length ≤ id →
      execute s caller id = .error ZeitDAOError.ProposalDoesNotExist) ∧
    (id < u32cast s.proposals.length → tally s id < s.quorum →
      execute s caller id = .error ZeitDAOError.NotEnoughVotesApproved) ∧
    (id < u32cast s.proposals.length → s.quorum ≤ tally s id →
      execute s caller id = .ok (s.proposals.getD id ⟨DAOAction.RemarkWithEvent, []⟩)) := by
  refine ⟨fun h => ?_, fun h1 h2 => ?_, fun h1 h2 => ?_⟩
  · simp [execute, check_proposal_exists, h]
  · simp [execute, check_proposal_exists, Nat.not_le.mpr h1, h2]
  · simp [execute, check_proposal_exists, Nat.not_le.mpr h1, Nat.not_lt.mpr h2]

/-- Witness for C2, the spec's own example: members 1, 2, 3 with quorum 2 and one
proposal; executing id 1 is out of bounds; with only member 1 voting aye, executing
id 0 lacks quorum; with members 1 and 2 voting aye, the non-member caller 9 executes
id 0 successfully. -/
theorem C2_execute_quorum_witness :
    execute exQuorumA 9 1 = .error ZeitDAOError.ProposalDoesNotExist ∧
    execute exQuorumA 9 0 = .error ZeitDAOError.NotEnoughVotesApproved ∧
    execute exQuorumAB 9 0 = .ok actRemark :=
  ⟨(C2_execute_quorum exQuorumA 9 1).1 (by decide),
   (C2_execute_quorum exQuorumA 9 0).2.1 (by decide) (by decide),
   (C2_execute_quorum exQuorumAB 9 0).2.2 (by decide) (by decide)⟩

/-- Claim C3 counterexample: a non-member caller (9) voting on an out-of-bounds id (5)
gets `OnlyMemberAllowed`, not `ProposalDoesNotExist` — the membership guard runs
before the bounds check. -/
theorem C3_vote_nonmember_counterexample :
    u32cast exAB.proposals.length ≤ 5 ∧ is_member exAB 9 = false ∧
    (vote exAB 9 5 true).1 = .error ZeitDAOError.OnlyMemberAllowed ∧
    (Except.error ZeitDAOError.OnlyMemberAllowed : Except ZeitDAOError Unit) ≠
      Except.error ZeitDAOError.ProposalDoesNotExist := by
  refine ⟨by decide, by decide, rfl, by simp⟩

/-- Claim C3 (amended): for every member caller and out-of-bounds id, `vote` fails
with `ProposalDoesNotExist` and leaves the state unchanged; a non-member caller
instead fails with `OnlyMemberAllowed` first. -/
theorem C3_vote_out_of_bounds (s : ZeitDaoState) (caller : AccountId) (id : Nat)
    (d : Bool) (hm : is_member s caller = true)
    (hid : u32cast s.proposals.length ≤ id) :
    vote s caller id d = (.error ZeitDAOError.ProposalDoesNotExist, s) := by
  simp [vote, only_member, hm, check_proposal_exists, hid]

/-- Witness for C3: member 1 of a state with an empty log votes on id 5. -/
theorem C3_vote_out_of_bounds_witness :
    is_member exAB 1 = true ∧ u32cast exAB.proposals.length ≤ 5 ∧
    vote exAB 1 5 true = (.error ZeitDAOError.ProposalDoesNotExist, exAB) :=
  ⟨by decide, by decide, C3_vote_out_of_bounds exAB 1 5 true (by decide) (by decide)⟩

/-- Claim C4: `propose` by a non-member fails with `OnlyMemberAllowed` leaving the
state (so the log) unchanged; by a member it appends the action and returns the log
length before the append, touching no other field (so no ballot is recorded for the
proposer). -/
theorem C4_propose (s : ZeitDaoState) (caller : AccountId) (a : StorableRuntimeAction) :
    (is_member s caller = false →
      propose s caller a = (.error ZeitDAOError.OnlyMemberAllowed, s)) ∧
    (is_member s caller = true → s.proposals.length + 1 < 2 ^ 32 →
      propose s caller a =
        (.ok s.proposals.length, { s with proposals := s.proposals ++ [a] })) := by
  constructor
  · intro h
    simp [propose, only_member, h]
  · intro h h32
    simp only [propose, only_member, h, Bool.not_true, Bool.false_eq_true, if_false]
    have hl : (s.proposals ++ [a]).length = s.proposals.length + 1 := by simp
    rw [hl, u32sub1_u32cast_succ s.proposals.length h32]

/-- Witness for C4: non-member 9 is rejected; member 1 gets index 0 on the first
proposal. -/
theorem C4_propose_witness :
    is_member exAB 9 = false ∧ is_member exAB 1 = true ∧
    exAB.proposals.length + 1 < 2 ^ 32 ∧
    propose exAB 9 actRemark = (.error ZeitDAOError.OnlyMemberAllowed, exAB) ∧
    propose exAB 1 actRemark =
      (.ok exAB.proposals.length, { exAB with proposals := exAB.proposals ++ [actRemark] }) :=
  ⟨by decide, by decide, by decide,
   (C4_propose exAB 9 actRemark).1 (by decide),
   (C4_propose exAB 1 actRemark).2 (by decide) (by decide)⟩

/-- Claim C5 counterexample: with two current members and balance 10, a successful
`distribute` issues exactly one transfer request, of the full balance, to the single
target — not one per-member request of the split share (which would be two requests
of 5 each). -/
theorem C5_distribute_no_split_counterexample :
    distribute exAB 7 7 10 3 none = some (.ok (), exAB, [⟨3, 10⟩]) ∧
    exAB.members.length = 2 ∧
    ([(⟨3, 10⟩ : TransferRequest)].length = exAB.members.length → False) := by
  refine ⟨rfl, rfl, by decide⟩

/-- Claim C5 (amended): when called by the engine's own account, `distribute` requests
exactly one transfer from the external executor, of the full balance, to the given
target, with the storage unchanged — no per-member split takes place. -/
theorem C5_distribute_single_transfer (s : ZeitDaoState) (selfAccount target : AccountId)
    (balance : Nat) :
    distribute s selfAccount selfAccount balance target none =
      some (.ok (), s, [⟨target, balance⟩]) := by
  simp [distribute, only_self]

/-- Claim C6: construction fails exactly when the quorum exceeds the member count, and
on success stores the members in order, the quorum, and an empty proposal log (with an
empty ballot mapping). -/
theorem C6_new_characterization (q : Nat) (m : List AccountId) (hm : m.length < 2 ^ 32) :
    (new q m = none ↔ q > m.length) ∧
    (q ≤ m.length →
      new q m =
        some { members := m, votes := fun _ => none, quorum := q, proposals := [] }) := by
  have hc : u32cast m.length = m.length := Nat.mod_eq_of_lt hm
  unfold new
  rw [hc]
  refine ⟨⟨fun h => ?_, fun h => by rw [if_pos h]⟩, fun h => by rw [if_neg (Nat.not_lt.mpr h)]⟩
  by_contra hq
  rw [if_neg hq] at h
  exact Option.noConfusion h

/-- Witness for C6: quorum 3 over two members fails; quorum 1 over two members yields
the stored state. -/
theorem C6_new_characterization_witness :
    ([1, 2] : List AccountId).length < 2 ^ 32 ∧
    new 3 [1, 2] = none ∧ (1 : Nat) ≤ ([1, 2] : List AccountId).length ∧
    new 1 [1, 2] =
      some { members := [1, 2], votes := fun _ => none, quorum := 1, proposals := [] } :=
  ⟨by decide, (C6_new_characterization 3 [1, 2] (by decide)).1.mpr (by decide),
   by decide, (C6_new_characterization 1 [1, 2] (by decide)).2 (by decide)⟩

/-- Claim C7: for a member caller and an in-bounds id, a second vote overwrites the
first: both casts succeed, the recorded ballot is the second value, and the state
after the two casts equals the state after a single cast of the second value (hence
re-voting the same value is idempotent). -/
theorem C7_revote_overwrites (s : ZeitDaoState) (caller : AccountId) (id : Nat)
    (v1 v2 : Bool) (hm : is_member s caller = true)
    (hid : id < u32cast s.proposals.length) :
    (vote s caller id v1).1 = .ok () ∧
    (vote (vote s caller id v1).2 caller id v2).1 = .ok () ∧
    (vote (vote s caller id v1).2 caller id v2).2.votes (caller, id) = some v2 ∧
    (vote (vote s caller id v1).2 caller id v2).2 = (vote s caller id v2).2 := by
  have h1 := vote_ok s caller id v1 hm hid
  have hm2 : is_member (vote s caller id v1).2 caller = true := by
    rw [h1]; exact hm
  have hid2 : id < u32cast (vote s caller id v1).2.proposals.length := by
    rw [h1]; exact hid
  have h2 := vote_ok (vote s caller id v1).2 caller id v2 hm2 hid2
  have h3 := vote_ok s caller id v2 hm hid
  refine ⟨by rw [h1], by rw [h2], ?_, ?_⟩
  · rw [h2]
    simp [mapInsert]
  · rw [h2, h3, h1]
    exact congrArg (fun f => { s with votes := f })
      (mapInsert_mapInsert s.votes (caller, id) v1 v2)

/-- Witness for C7: member 1 votes aye then nay on proposal 0 of a one-proposal
state. -/
theorem C7_revote_overwrites_witness :
    is_member exOne 1 = true ∧ 0 < u32cast exOne.proposals.length ∧
    ((vote exOne 1 0 true).1 = .ok () ∧
     (vote (vote exOne 1 0 true).2 1 0 false).1 = .ok () ∧
     (vote (vote exOne 1 0 true).2 1 0 false).2.votes (1, 0) = some false ∧
     (vote (vote exOne 1 0 true).2 1 0 false).2 = (vote exOne 1 0 false).2) :=
  ⟨by decide, by decide, C7_revote_overwrites exOne 1 0 true false (by decide) (by decide)⟩

/-- Claim C8 (code bug): the claim says no reachable path aborts outside construction,
but the `From` conversion of environment errors aborts (`panic!`) on every variant
other than `CallRuntimeFailed`, that abort is reachable from `distribute` when the
executor reports such an error, and the query `proposal` aborts on an out-of-bounds
read for every id above the log length. -/
theorem C8_panic_paths :
    zeitDAOErrorFromEnv EnvError.CalleeTrapped = none ∧
    distribute exAB 7 7 10 3 (some EnvError.CalleeTrapped) = none ∧
    proposal exOne 2 = none := by
  exact ⟨rfl, rfl, rfl⟩

/-- Claim C9: for every caller different from the engine's own account, `distribute`
fails with `OnlySelfAllowed`, leaves the storage unchanged and requests no transfer
from the external executor (the guard being the equality test of `only_self`). -/
theorem C9_distribute_only_self (s : ZeitDaoState) (caller selfAccount : AccountId)
    (balance : Nat) (target : AccountId) (e : Option EnvError)
    (h : caller ≠ selfAccount) :
    distribute s caller selfAccount balance target e =
      some (.error ZeitDAOError.OnlySelfAllowed, s, []) := by
  simp [distribute, only_self, h]

/-- Witness for C9: caller 9 differs from the engine account 7. -/
theorem C9_distribute_only_self_witness :
    (9 : AccountId) ≠ 7 ∧
    distribute exAB 9 7 10 3 none = some (.error ZeitDAOError.OnlySelfAllowed, exAB, []) :=
  ⟨by decide, C9_distribute_only_self exAB 9 7 10 3 none (by decide)⟩

/-- Claim C10: the members and the quorum are constant after construction — `propose`
and `vote` (success or failure) return a post-state with the same members and quorum,
and every non-aborting `distribute` does too.  The queries (`members`, `is_member`,
`proposal`) take the storage immutably in the source and are pure functions of it
here, so they change nothing. -/
theorem C10_members_quorum_constant (s : ZeitDaoState) (caller selfAccount : AccountId)
    (a : StorableRuntimeAction) (id : Nat) (d : Bool) (balance : Nat)
    (target : AccountId) (e : Option EnvError) :
    (propose s caller a).2.members = s.members ∧
    (propose s caller a).2.quorum = s.quorum ∧
    (vote s caller id d).2.members = s.members ∧
    (vote s caller id d).2.quorum = s.quorum ∧
    (∀ r, distribute s caller selfAccount balance target e = some r →
      r.2.1.members = s.members ∧ r.2.1.quorum = s.quorum) := by
  refine ⟨?_, ?_, ?_, ?_, ?_⟩
  · unfold propose; cases only_member s caller <;> rfl
  · unfold propose; cases only_member s caller <;> rfl
  · unfold vote; cases only_member s caller
    · rfl
    · cases check_proposal_exists s id <;> rfl
  · unfold vote; cases only_member s caller
    · rfl
    · cases check_proposal_exists s id <;> rfl
  · intro r hr
    by_cases hc : caller = selfAccount
    · subst hc
      cases e with
      | none =>
        simp [distribute, only_self] at hr
        subst hr
        exact ⟨rfl, rfl⟩
      | some err =>
        cases h2 : zeitDAOErrorFromEnv err with
        | none => simp [distribute, only_self, h2] at hr
        | some z =>
          simp [distribute, only_self, h2] at hr
          subst hr
          exact ⟨rfl, rfl⟩
    · simp [distribute, only_self, hc] at hr
      subst hr
      exact ⟨rfl, rfl⟩

/-- Witness for C10: concrete runs of `propose`, `vote` and `distribute` on the
two-member state. -/
theorem C10_members_quorum_constant_witness :
    (propose exAB 1 actRemark).2.members = exAB.members ∧
    (vote exOne 1 0 true).2.quorum = exOne.quorum ∧
    ((Except.ok (), exAB, [(⟨3, 10⟩ : TransferRequest)]) :
        Except ZeitDAOError Unit × ZeitDaoState × List TransferRequest).2.1.members
      = exAB.members :=
  ⟨(C10_members_quorum_constant exAB 1 7 actRemark 0 true 10 3 none).1,
   (C10_members_quorum_constant exOne 1 7 actRemark 0 true 10 3 none).2.2.2.1,
   ((C10_members_quorum_constant exAB 7 7 actRemark 0 true 10 3 none).2.2.2.2
      (.ok (), exAB, [⟨3, 10⟩]) rfl).1⟩

end ZeitDao
